import Mathlib

/-!
Verification development for `input/drivers_hid/apple_hid.c`.

A shallow embedding of the HID pad driver's callbacks

* `hid_pad_connection_send_control` (output channel),
* `hid_device_input_callback` (per-value report decoder),
* `remove_device` (removal callback),
* `hid_device_report` (raw-report callback),

followed by theorems that settle the specification's contract claims against
the embedded code.

Conventions of the embedding.

* C arrays are functions on `Nat` indices of which only the indices below the
  declared length are cells of the array.  A store outside an array is
  undefined behaviour: the operation then has no result (`none`).  The layout
  of the enclosing struct is not modelled, so nothing is said about what such
  a store would hit.
* `float` is IEEE-754 binary32 with round-to-nearest-even.  Finite values are
  the rationals they denote; a non-finite value (division by zero) is `none`.
  Operands derived from `CFIndex` values never leave the normal exponent range,
  so only the 24-bit significand is modelled.  The conversion of a float to a
  signed 16-bit axis entry is undefined (`none`) when the truncated value is
  not a signed 16-bit value.
* `CFIndex` values are integers and their differences are exact; signed
  overflow, undefined in C, is outside the embedding.
* Calls into collaborators (message queue, slot allocator, IOKit) are recorded
  as `Effect`s in call order.
-/

namespace AppleHid

/-! ## IOKit constants -/

/-- Modelled from the spec: the "misc" input element type; an IOKit header
constant (`kIOHIDElementTypeInput_Misc`), not under `src/`. -/
def kIOHIDElementTypeInput_Misc : Nat := 1

/-- Modelled from the spec: the "button" input element type; an IOKit header
constant (`kIOHIDElementTypeInput_Button`), not under `src/`. -/
def kIOHIDElementTypeInput_Button : Nat := 2

/-- Modelled from the spec: the "axis" input element type; an IOKit header
constant (`kIOHIDElementTypeInput_Axis`), not under `src/`. -/
def kIOHIDElementTypeInput_Axis : Nat := 3

/-- Modelled from the spec: the Generic-Desktop usage page; an IOKit header
constant (`kHIDPage_GenericDesktop`), not under `src/`. -/
def kHIDPage_GenericDesktop : Nat := 0x01

/-- Modelled from the spec: the Button usage page; an IOKit header constant
(`kHIDPage_Button`), not under `src/`. -/
def kHIDPage_Button : Nat := 0x09

/-- Modelled from the spec: the Generic-Desktop hat-switch usage; an IOKit
header constant (`kHIDUsage_GD_Hatswitch`), not under `src/`. -/
def kHIDUsage_GD_Hatswitch : Nat := 0x39

/-- Modelled from the spec: the fixed report type of an output report; an IOKit
header constant (`kIOHIDReportTypeOutput`), not under `src/`. -/
def kIOHIDReportTypeOutput : Nat := 1

/-! ## Data model -/

/-- The C `struct pad_connection`.  `slot` is a `uint32_t`; `device_handle` is
the opaque `IOHIDDeviceRef`, kept as a handle number; `data` is the scratch
report buffer. -/
structure pad_connection where
  v_id : Int
  p_id : Int
  slot : Nat
  device_handle : Nat
  data : List Nat

/-- Modelled from the spec: the slot state store `apple_input_data_t`, whose
declaration is not under `src/`.  Per the spec each of the `MAX_USERS` slots
has a 64-bit button flag set and four signed 16-bit axis values.
`buttons s` is `apple->buttons[s]`, a cell of the array for `s < MAX_USERS`;
`axes (4 * s + i)` is `apple->axes[s][i]` (row-major, four entries per row), a
cell of the table for `4 * s + i < 4 * MAX_USERS`.  The widths of the cells are
the invariant `store_valid`. -/
structure apple_input_data_t where
  buttons : Nat → Nat
  axes : Nat → Int

/-- The cells of the store hold values of their C types: every button mask is
a 64-bit value and every axis entry a signed 16-bit value. -/
def store_valid (MAX_USERS : Nat) (apple : apple_input_data_t) : Prop :=
  (∀ s, s < MAX_USERS → apple.buttons s < 2 ^ 64) ∧
  (∀ k, k < 4 * MAX_USERS → -32768 ≤ apple.axes k ∧ apple.axes k ≤ 32767)

/-- What the callback reads off an `IOHIDValueRef` and its element:
`IOHIDElementGetType`, `IOHIDElementGetUsagePage`, `IOHIDElementGetUsage`
(all `uint32_t`), `IOHIDElementGetPhysicalMin`, `IOHIDElementGetPhysicalMax`
and `IOHIDValueGetIntegerValue` (all `CFIndex`). -/
structure IOHIDValueRef where
  type : Nat
  page : Nat
  use : Nat
  physical_min : Int
  physical_max : Int
  integer_value : Int

/-- Calls into collaborators, recorded in the order they are made. -/
inductive Effect where
  /-- `rarch_main_msg_queue_push(msg, prio, duration, flush)`. -/
  | msg_queue_push (msg : String) (prio : Nat) (duration : Nat) (flush : Bool)
  /-- `RARCH_LOG(...)` with the formatted text. -/
  | rarch_log (msg : String)
  /-- `pad_connection_pad_deinit(&slots[slot], slot)`. -/
  | pad_deinit (slot : Nat)
  /-- `pad_connection_packet(&slots[slot], slot, data, length)`. -/
  | packet (slot : Nat) (data : List Nat) (length : Int)
  /-- `IOHIDDeviceSetReport(device, reportType, reportID, report, reportLength)`;
  `report` lists the bytes of the caller's buffer that the pointer and length
  designate. -/
  | set_report (device : Nat) (reportType : Nat) (reportID : Nat)
      (report : List Nat) (reportLength : Int)
  deriving DecidableEq

/-- The driver's mutable world: the slot state store, the heap of allocated
`pad_connection` records (address to contents; `none` when not allocated), and
the collaborator calls made so far. -/
structure World where
  apple : apple_input_data_t
  heap : Nat → Option pad_connection
  trace : List Effect

/-- The store `apple->buttons[slot] = v`; undefined outside the array. -/
def store_button (MAX_USERS : Nat) (apple : apple_input_data_t) (slot v : Nat) :
    Option apple_input_data_t :=
  if slot < MAX_USERS then
    some { apple with buttons := Function.update apple.buttons slot v }
  else none

/-- The store `apple->axes[slot][i] = v` for `i < 4`; undefined outside the
table. -/
def store_axis (MAX_USERS : Nat) (apple : apple_input_data_t) (slot i : Nat) (v : Int) :
    Option apple_input_data_t :=
  if slot < MAX_USERS then
    some { apple with axes := Function.update apple.axes (4 * slot + i) v }
  else none

/-! ## Bit macros -/

/-- Modelled from the spec: the `BIT64_SET` macro, not under `src/`.  The spec
has a non-zero value set bit `id` in the slot's button mask, a 64-bit flag set,
and has decoding ignore an id that does not stay below 64, the width of the
mask: the result is the old mask with bit `bit` set, as a 64-bit value, so that
a bit at or beyond the width changes nothing. -/
def BIT64_SET (a bit : Nat) : Nat :=
  (a ||| 2 ^ bit) % 2 ^ 64

/-- Modelled from the spec: the `BIT64_CLEAR` macro, not under `src/`.  The spec
has a zero value clear bit `id` in the slot's button mask, a 64-bit flag set,
and has decoding ignore an id that does not stay below 64, the width of the
mask: the result is the old mask with the 64-bit complement of bit `bit` masked
in, so that a bit at or beyond the width changes nothing. -/
def BIT64_CLEAR (a bit : Nat) : Nat :=
  a &&& ((2 ^ 64 - 1) ^^^ (2 ^ bit % 2 ^ 64))

/-! ## Single-precision arithmetic -/

/-- Nearest integer to `x`, ties to the even one. -/
def round_half_even (x : ℚ) : Int :=
  let f := ⌊x⌋
  let r := x - f
  if r < 1 / 2 then f
  else if 1 / 2 < r then f + 1
  else if f % 2 = 0 then f else f + 1

/-- Rounding of a rational to binary32: the nearest multiple of the unit in the
last place of its binade (24-bit significand), ties to even. -/
def f32_round (q : ℚ) : ℚ :=
  if q = 0 then 0
  else
    let ulp : ℚ := 2 ^ (Int.log 2 |q| - 23)
    (round_half_even (q / ulp) : ℚ) * ulp

/-- The conversion `(float)n` of a `CFIndex`. -/
def f32_of_int (n : Int) : ℚ := f32_round n

/-- The `float` quotient `a / b`; non-finite when the divisor is zero. -/
def f32_div (a b : ℚ) : Option ℚ :=
  if b = 0 then none else some (f32_round (a / b))

/-- The `float` product. -/
def f32_mul (a b : ℚ) : ℚ := f32_round (a * b)

/-- The `float` difference. -/
def f32_sub (a b : ℚ) : ℚ := f32_round (a - b)

/-- The integral part of a finite `float`: the fraction is discarded
(truncation toward zero). -/
def f32_to_int (q : ℚ) : Int := Int.tdiv q.num q.den

/-- Conversion of a finite `float` to a signed 16-bit integer: the integral
part when it is a signed 16-bit value, undefined (`none`) otherwise. -/
def f32_to_int16 (q : ℚ) : Option Int :=
  if -32768 ≤ f32_to_int q ∧ f32_to_int q ≤ 32767 then some (f32_to_int q) else none

/-! ## Output channel -/

/-- The C function `hid_pad_connection_send_control(data, data_buf, size)`.
`data` is the nullable connection pointer.  With a connection it makes the one
call `IOHIDDeviceSetReport(connection->device_handle, kIOHIDReportTypeOutput,
0x01, data_buf + 1, size - 1)`: the report pointer skips the first byte of the
caller's buffer and the length is `size - 1`. -/
def hid_pad_connection_send_control (data : Option pad_connection)
    (data_buf : List Nat) (size : Nat) : List Effect :=
  match data with
  | none => []
  | some connection =>
    let reportLength : Int := (size : Int) - 1
    [Effect.set_report connection.device_handle kIOHIDReportTypeOutput 0x01
      ((data_buf.drop 1).take reportLength.toNat) reportLength]

/-! ## Per-value report decoder -/

/-- The table `axis_use_ids[4]` of recognised axis usage codes. -/
def axis_use_ids : List Nat := [48, 49, 50, 53]

/-- The expression `((val * 2.0f) - 1.0f) * 32767.0f`. -/
def axis_scale (val : ℚ) : ℚ :=
  f32_mul (f32_sub (f32_mul val 2) 1) 32767

/-- One iteration of `for (i = 0; i < 4; i++)`.  The locals `min`, `max`,
`state` and `val = (float)state / (float)max` are computed first; when the
usage is not `axis_use_ids[i]` the iteration is skipped (`continue`); otherwise
`((val * 2.0f) - 1.0f) * 32767.0f` is converted to a signed 16-bit integer and
stored in `apple->axes[connection->slot][i]`.  The iteration is undefined
(`none`) when the float is not finite, when its integral part is no signed
16-bit value, or when the slot lies outside the table. -/
def axis_loop_body (MAX_USERS : Nat) (connection : pad_connection) (value : IOHIDValueRef)
    (apple : apple_input_data_t) (i : Nat) : Option apple_input_data_t :=
  let min := value.physical_min
  let max := value.physical_max - min
  let state := value.integer_value - min
  let val := f32_div (f32_of_int state) (f32_of_int max)
  if value.use ≠ axis_use_ids.getD i 0 then some apple
  else
    (val.map axis_scale).bind fun f =>
      (f32_to_int16 f).bind fun n =>
        store_axis MAX_USERS apple connection.slot i n

/-- The `float` an iteration of the loop converts and stores:
`((val * 2.0f) - 1.0f) * 32767.0f` with `val = (float)state / (float)max`,
`max = physical_max - min` and `state = integer_value - min`. -/
def axis_float (value : IOHIDValueRef) : Option ℚ :=
  (f32_div (f32_of_int (value.integer_value - value.physical_min))
    (f32_of_int (value.physical_max - value.physical_min))).map axis_scale

/-- The C function `hid_device_input_callback(context, result, sender, value)`
acting on the slot state store; `connection` is the record `context` points to
and `MAX_USERS` the length of the store's arrays (a constant not under `src/`,
taken as a parameter).  The result is `none` when the C code's behaviour is
undefined: a store outside the arrays or an undefined float conversion. -/
def hid_device_input_callback (MAX_USERS : Nat) (apple : apple_input_data_t)
    (connection : pad_connection) (value : IOHIDValueRef) :
    Option apple_input_data_t :=
  let type := value.type
  let page := value.page
  let use := value.use
  if type ≠ kIOHIDElementTypeInput_Misc ∧ type ≠ kIOHIDElementTypeInput_Button
      ∧ type ≠ kIOHIDElementTypeInput_Axis then
    some apple
  else if page = kHIDPage_GenericDesktop then
    if type = kIOHIDElementTypeInput_Misc then
      if use = kHIDUsage_GD_Hatswitch then some apple
      else [0, 1, 2, 3].foldlM (axis_loop_body MAX_USERS connection value) apple
    else some apple
  else if page = kHIDPage_Button then
    if type = kIOHIDElementTypeInput_Button then
      let state := value.integer_value
      let id := (use + 2 ^ 32 - 1) % 2 ^ 32
      if state ≠ 0 then
        store_button MAX_USERS apple connection.slot
          (BIT64_SET (apple.buttons connection.slot) id)
      else
        store_button MAX_USERS apple connection.slot
          (BIT64_CLEAR (apple.buttons connection.slot) id)
    else some apple
  else some apple

/-! ## Removal callback -/

/-- The text `snprintf` formats from `"Joypad #%u (%s) disconnected."` with the
slot and `"N/A"`.  It is at most 38 characters, below any path-length bound, so
the truncation to `sizeof(msg)` is not modelled. -/
def disconnect_msg (slot : Nat) : String :=
  "Joypad #" ++ toString slot ++ " (N/A) disconnected."

/-- The entries that `memset(apple->axes[slot], 0, sizeof(apple->axes))`
writes: starting at the first entry of row `slot` (entry `4 * slot`), as many
entries as the whole table holds (`4 * MAX_USERS`). -/
def memset_entries (MAX_USERS slot : Nat) : List Nat :=
  List.range' (4 * slot) (4 * MAX_USERS)

/-- The call `memset(apple->axes[slot], 0, sizeof(apple->axes))`.  The table is
the entries below `4 * MAX_USERS`.  When every written entry lies in the table
the written entries become 0 and the others keep their value; when the write
runs past the end of the table the call is undefined (`none`). -/
def memset_axes (MAX_USERS : Nat) (axes : Nat → Int) (slot : Nat) : Option (Nat → Int) :=
  if ∀ k ∈ memset_entries MAX_USERS slot, k < 4 * MAX_USERS then
    some fun k => if k ∈ memset_entries MAX_USERS slot then 0 else axes k
  else none

/-- The C function `remove_device(context, result, sender)`.  `context` is the
nullable connection pointer; `MAX_USERS` is the slot-count constant, not under
`src/`, taken as a parameter.  A context that is not an allocated connection
is outside the callback's contract and leaves the world as it is.  The result
is `none` when the `memset` is undefined. -/
def remove_device (MAX_USERS : Nat) (w : World) (context : Option Nat) : Option World :=
  match context with
  | none => some w
  | some p =>
    match w.heap p with
    | none => some w
    | some connection =>
      if connection.slot < MAX_USERS then
        let msg := disconnect_msg connection.slot
        (memset_axes MAX_USERS w.apple.axes connection.slot).map fun axes =>
          { apple :=
              { buttons := Function.update w.apple.buttons connection.slot 0
                axes := axes }
            heap := Function.update w.heap p none
            trace := w.trace ++
              [Effect.msg_queue_push msg 0 60 false,
               Effect.rarch_log ("[apple_input]: " ++ msg ++ "\n"),
               Effect.pad_deinit connection.slot] }
      else some w

/-! ## Raw-report callback -/

/-- The C function `hid_device_report(context, result, sender, type, reportID,
report, reportLength)`.  Only a null context returns early; otherwise
`pad_connection_packet(&slots[connection->slot], connection->slot,
connection->data, reportLength + 1)` is called. -/
def hid_device_report (w : World) (context : Option Nat) (_type : Nat)
    (_reportID : Nat) (_report : List Nat) (reportLength : Int) : World :=
  match context with
  | none => w
  | some p =>
    match w.heap p with
    | none => w
    | some connection =>
      { w with
        trace := w.trace ++
          [Effect.packet connection.slot connection.data (reportLength + 1)] }

/-! ## The specification's axis formula -/

/-- The all-zero slot state store. -/
def apple_zero : apple_input_data_t := { buttons := fun _ => 0, axes := fun _ => 0 }

/-- A connection bound to slot 0. -/
def conn_slot0 : pad_connection :=
  { v_id := 0x054c, p_id := 0x0268, slot := 0, device_handle := 7, data := [0, 0, 0] }

/-- A Button-page, button-type event. -/
def button_event (usage : Nat) (v : Int) : IOHIDValueRef :=
  { type := kIOHIDElementTypeInput_Button, page := kHIDPage_Button, use := usage,
    physical_min := 0, physical_max := 1, integer_value := v }

/-- A Generic-Desktop event of the given element type. -/
def desktop_event (type usage : Nat) (physical_min physical_max raw : Int) : IOHIDValueRef :=
  { type := type, page := kHIDPage_GenericDesktop, use := usage,
    physical_min := physical_min, physical_max := physical_max, integer_value := raw }

/-- A world holding one allocated connection, at address `p`, and an empty
call trace. -/
def world_with (apple : apple_input_data_t) (p : Nat) (connection : pad_connection) : World :=
  { apple := apple
    heap := fun a => if a = p then some connection else none
    trace := [] }

/-- A connection whose slot is still the unassigned sentinel `MAX_USERS`, as
`add_device` initialises it (`connection->slot = MAX_USERS`). -/
def conn_unassigned (MAX_USERS : Nat) : pad_connection :=
  { v_id := 0, p_id := 0, slot := MAX_USERS, device_handle := 9, data := [0, 0, 0] }

/-- A connection bound to slot 1. -/
def conn_slot1 : pad_connection :=
  { v_id := 0x054c, p_id := 0x0268, slot := 1, device_handle := 8, data := [0, 0, 0] }

/-- A store whose button masks are all 1 and whose axis entries are all 5. -/
def apple_busy : apple_input_data_t := { buttons := fun _ => 1, axes := fun _ => 5 }

/-! ## Facts about the single-precision model -/

theorem round_half_even_abs_sub_le (x : ℚ) : |x - (round_half_even x : ℚ)| ≤ 1 / 2 := by
  have h0 : (0 : ℚ) ≤ x - ⌊x⌋ := sub_nonneg.mpr (Int.floor_le x)
  have h1 : x - ⌊x⌋ < 1 := by
    have := Int.lt_floor_add_one x
    linarith
  unfold round_half_even
  simp only
  split_ifs with ha hb hc
  · rw [abs_le]; constructor <;> linarith
  · rw [abs_le]; push_cast; constructor <;> linarith
  · rw [abs_le]; constructor <;> linarith
  · rw [abs_le]; push_cast; constructor <;> linarith

theorem round_half_even_of_near (x : ℚ) (m : ℤ) (h : |x - m| < 1 / 2) :
    round_half_even x = m := by
  have h2 := round_half_even_abs_sub_le x
  rw [abs_lt] at h
  rw [abs_le] at h2
  have h3 : ((round_half_even x : ℤ) : ℚ) < (m : ℚ) + 1 := by linarith
  have h4 : (m : ℚ) < ((round_half_even x : ℤ) : ℚ) + 1 := by linarith
  have h5 : round_half_even x < m + 1 := by exact_mod_cast h3
  have h6 : m < round_half_even x + 1 := by exact_mod_cast h4
  omega

theorem int_log_two_eq (q : ℚ) (e : ℤ) (h1 : (2 : ℚ) ^ e ≤ q) (h2 : q < (2 : ℚ) ^ (e + 1)) :
    Int.log 2 q = e := by
  have hq : 0 < q := lt_of_lt_of_le (by positivity) h1
  have a : e ≤ Int.log 2 q := (Int.zpow_le_iff_le_log (by norm_num) hq).mp (by exact_mod_cast h1)
  have b : Int.log 2 q < e + 1 := (Int.lt_zpow_iff_log_lt (by norm_num) hq).mp (by exact_mod_cast h2)
  omega

theorem f32_round_zero : f32_round 0 = 0 := by
  simp [f32_round]

theorem f32_round_of_binade (q : ℚ) (e m : ℤ) (h1 : (2 : ℚ) ^ e ≤ |q|)
    (h2 : |q| < (2 : ℚ) ^ (e + 1)) (hm : |q / (2 : ℚ) ^ (e - 23) - m| < 1 / 2) :
    f32_round q = m * (2 : ℚ) ^ (e - 23) := by
  have hq : q ≠ 0 := by
    intro h
    rw [h, abs_zero] at h1
    exact absurd h1 (not_le.mpr (by positivity))
  unfold f32_round
  rw [if_neg hq]
  simp only
  rw [int_log_two_eq |q| e h1 h2, round_half_even_of_near _ m hm]

theorem f32_round_ne_zero (q : ℚ) (hq : q ≠ 0) : f32_round q ≠ 0 := by
  unfold f32_round
  rw [if_neg hq]
  simp only
  have habs : 0 < |q| := abs_pos.mpr hq
  have h1 : (2 : ℚ) ^ Int.log 2 |q| ≤ |q| := by
    have := Int.zpow_log_le_self (R := ℚ) (b := 2) (by norm_num) habs
    exact_mod_cast this
  have hu : (0 : ℚ) < 2 ^ (Int.log 2 |q| - 23) := by positivity
  have hx : (2 : ℚ) ^ (23 : ℤ) ≤ |q / 2 ^ (Int.log 2 |q| - 23)| := by
    rw [abs_div, abs_of_pos hu, le_div_iff₀ hu, ← zpow_add₀ (by norm_num : (2 : ℚ) ≠ 0)]
    simpa using h1
  have hr := round_half_even_abs_sub_le (q / 2 ^ (Int.log 2 |q| - 23))
  apply mul_ne_zero _ hu.ne'
  intro h0
  rw [h0, sub_zero] at hr
  have : (2 : ℚ) ^ (23 : ℤ) ≤ 1 / 2 := le_trans hx hr
  norm_num at this

theorem f32_round_one : f32_round 1 = 1 := by
  rw [f32_round_of_binade 1 0 (2 ^ 23) (by norm_num) (by norm_num) (by norm_num)]
  norm_num

theorem f32_round_two : f32_round 2 = 2 := by
  rw [f32_round_of_binade 2 1 (2 ^ 23) (by norm_num) (by norm_num) (by norm_num)]
  norm_num

theorem f32_round_neg_one : f32_round (-1) = -1 := by
  rw [f32_round_of_binade (-1) 0 (-2 ^ 23) (by norm_num) (by norm_num) (by norm_num)]
  norm_num

theorem f32_round_32767 : f32_round 32767 = 32767 := by
  rw [f32_round_of_binade 32767 14 (32767 * 2 ^ 9) (by norm_num) (by norm_num) (by norm_num)]
  norm_num

theorem f32_round_neg_32767 : f32_round (-32767) = -32767 := by
  rw [f32_round_of_binade (-32767) 14 (-(32767 * 2 ^ 9)) (by norm_num) (by norm_num)
    (by norm_num)]
  norm_num

/-! ## Facts about the bit macros -/

theorem two_pow_mod_of_lt (bit : Nat) (hb : bit < 64) :
    2 ^ bit % 2 ^ 64 = 2 ^ bit :=
  Nat.mod_eq_of_lt (Nat.pow_lt_pow_right (by norm_num) hb)

theorem BIT64_SET_eq (a bit : Nat) (ha : a < 2 ^ 64) (hb : bit < 64) :
    BIT64_SET a bit = a ||| 2 ^ bit := by
  unfold BIT64_SET
  apply Nat.mod_eq_of_lt
  apply Nat.or_lt_two_pow ha
  exact Nat.pow_lt_pow_right (by norm_num) hb

theorem BIT64_SET_testBit (a bit j : Nat) (ha : a < 2 ^ 64) (hb : bit < 64) :
    (BIT64_SET a bit).testBit j = (decide (j = bit) || a.testBit j) := by
  rw [BIT64_SET_eq a bit ha hb, Nat.testBit_or, Nat.testBit_two_pow, Bool.or_comm]
  congr 1
  simp [eq_comm]

theorem BIT64_CLEAR_eq (a bit : Nat) (hb : bit < 64) :
    BIT64_CLEAR a bit = a &&& ((2 ^ 64 - 1) ^^^ 2 ^ bit) := by
  unfold BIT64_CLEAR
  rw [two_pow_mod_of_lt bit hb]

theorem BIT64_CLEAR_testBit (a bit j : Nat) (ha : a < 2 ^ 64) (hb : bit < 64) :
    (BIT64_CLEAR a bit).testBit j = (!decide (j = bit) && a.testBit j) := by
  rw [BIT64_CLEAR_eq a bit hb, Nat.testBit_and, Nat.testBit_xor, Nat.testBit_two_pow_sub_one,
    Nat.testBit_two_pow]
  by_cases hj : j < 64
  · by_cases hjk : j = bit
    · subst hjk
      simp [hj]
    · have : ¬ bit = j := fun h => hjk h.symm
      simp [hj, hjk, this]
  · have hz : a.testBit j = false :=
      Nat.testBit_lt_two_pow (lt_of_lt_of_le ha (Nat.pow_le_pow_right (by norm_num) (by omega)))
    simp [hz]

theorem BIT64_CLEAR_lt (a bit : Nat) : BIT64_CLEAR a bit < 2 ^ 64 := by
  unfold BIT64_CLEAR
  apply lt_of_le_of_lt Nat.and_le_right
  exact Nat.xor_lt_two_pow (by norm_num) (Nat.mod_lt _ (by norm_num))

theorem BIT64_SET_lt (a bit : Nat) : BIT64_SET a bit < 2 ^ 64 :=
  Nat.mod_lt _ (by norm_num)

/-! ## The per-value decoder: buttons -/

/-- The button branch of the decoder: a Button-page, button-type event applies
`BIT64_SET` (nonzero value) or `BIT64_CLEAR` (zero value) to the connection's
slot mask with `id = use - 1` in 32-bit unsigned arithmetic; the decoder
itself has no range check on the id.  Nothing else is touched. -/
theorem hid_device_input_callback_button (MAX_USERS : Nat) (apple : apple_input_data_t)
    (connection : pad_connection) (value : IOHIDValueRef)
    (hslot : connection.slot < MAX_USERS)
    (hpage : value.page = kHIDPage_Button)
    (htype : value.type = kIOHIDElementTypeInput_Button) :
    hid_device_input_callback MAX_USERS apple connection value =
      some { apple with
        buttons := Function.update apple.buttons connection.slot
          (if value.integer_value ≠ 0 then
            BIT64_SET (apple.buttons connection.slot) ((value.use + 2 ^ 32 - 1) % 2 ^ 32)
          else
            BIT64_CLEAR (apple.buttons connection.slot)
              ((value.use + 2 ^ 32 - 1) % 2 ^ 32)) } := by
  unfold hid_device_input_callback
  simp only [hpage, htype]
  by_cases hv : value.integer_value = 0 <;>
    simp [hv, hslot, store_button, kHIDPage_Button, kHIDPage_GenericDesktop,
      kIOHIDElementTypeInput_Button, kIOHIDElementTypeInput_Misc, kIOHIDElementTypeInput_Axis]

/-- C1. For a connection whose slot `s` is in range and whose mask is a 64-bit
value, a Button-page, button-type event with usage `u`, `1 ≤ u ≤ 64`, leaves
slot `s`'s mask equal to the old mask with bit `u - 1` set when the value is
nonzero and cleared when it is zero; every other bit of that mask, every other
slot's mask and every axis value are unchanged. -/
theorem C1_button_event_sets_or_clears_bit (MAX_USERS : Nat) (apple : apple_input_data_t)
    (connection : pad_connection) (value : IOHIDValueRef) (u : Nat)
    (hslot : connection.slot < MAX_USERS)
    (hmask : apple.buttons connection.slot < 2 ^ 64)
    (hpage : value.page = kHIDPage_Button)
    (htype : value.type = kIOHIDElementTypeInput_Button)
    (husage : value.use = u) (hu1 : 1 ≤ u) (hu64 : u ≤ 64) :
    ∃ apple', hid_device_input_callback MAX_USERS apple connection value = some apple' ∧
      (value.integer_value ≠ 0 →
        apple'.buttons connection.slot = apple.buttons connection.slot ||| 2 ^ (u - 1) ∧
        ∀ j, (apple'.buttons connection.slot).testBit j =
          (decide (j = u - 1) || (apple.buttons connection.slot).testBit j)) ∧
      (value.integer_value = 0 →
        apple'.buttons connection.slot =
          apple.buttons connection.slot &&& ((2 ^ 64 - 1) ^^^ 2 ^ (u - 1)) ∧
        ∀ j, (apple'.buttons connection.slot).testBit j =
          (!decide (j = u - 1) && (apple.buttons connection.slot).testBit j)) ∧
      (∀ t, t ≠ connection.slot → apple'.buttons t = apple.buttons t) ∧
      apple'.axes = apple.axes := by
  have hid : (value.use + 2 ^ 32 - 1) % 2 ^ 32 = u - 1 := by
    rw [husage]; omega
  have hlt : u - 1 < 64 := by omega
  refine ⟨_, hid_device_input_callback_button MAX_USERS apple connection value hslot hpage htype,
    ?_, ?_, ?_, ?_⟩
  · intro hv
    simp only [hid, if_pos hv, Function.update_same]
    exact ⟨BIT64_SET_eq _ _ hmask hlt, fun j => BIT64_SET_testBit _ _ _ hmask hlt⟩
  · intro hv
    simp only [hid, hv, ne_eq, not_true_eq_false, if_false, Function.update_same]
    exact ⟨BIT64_CLEAR_eq _ _ hlt, fun j => BIT64_CLEAR_testBit _ _ _ hmask hlt⟩
  · intro t ht
    simp [Function.update_noteq ht]
  · rfl

/-- Witness for C1: usage 2 with value 1 on the all-zero store, slot 0 of 16. -/
theorem C1_button_event_sets_or_clears_bit_witness :
    (conn_slot0.slot < 16 ∧ apple_zero.buttons conn_slot0.slot < 2 ^ 64) ∧
    ∃ apple', hid_device_input_callback 16 apple_zero conn_slot0 (button_event 2 1) =
        some apple' ∧
      ((button_event 2 1).integer_value ≠ 0 →
        apple'.buttons conn_slot0.slot = apple_zero.buttons conn_slot0.slot ||| 2 ^ (2 - 1) ∧
        ∀ j, (apple'.buttons conn_slot0.slot).testBit j =
          (decide (j = 2 - 1) || (apple_zero.buttons conn_slot0.slot).testBit j)) ∧
      ((button_event 2 1).integer_value = 0 →
        apple'.buttons conn_slot0.slot =
          apple_zero.buttons conn_slot0.slot &&& ((2 ^ 64 - 1) ^^^ 2 ^ (2 - 1)) ∧
        ∀ j, (apple'.buttons conn_slot0.slot).testBit j =
          (!decide (j = 2 - 1) && (apple_zero.buttons conn_slot0.slot).testBit j)) ∧
      (∀ t, t ≠ conn_slot0.slot → apple'.buttons t = apple_zero.buttons t) ∧
      apple'.axes = apple_zero.axes :=
  ⟨⟨by decide, by decide⟩,
    C1_button_event_sets_or_clears_bit 16 apple_zero conn_slot0 (button_event 2 1) 2
      (by decide) (by decide) rfl rfl rfl (by decide) (by decide)⟩

theorem f32_to_int_intCast (n : ℤ) : f32_to_int (n : ℚ) = n := by
  simp [f32_to_int]

/-- The conversion to a signed 16-bit integer is defined, and gives the
integral part, when that is a signed 16-bit value. -/
theorem f32_to_int16_of_range (q : ℚ) (h1 : -32768 ≤ f32_to_int q)
    (h2 : f32_to_int q ≤ 32767) : f32_to_int16 q = some (f32_to_int q) := by
  simp [f32_to_int16, h1, h2]

/-- The loop body in terms of the float it converts. -/
theorem axis_loop_body_eq (MAX_USERS : Nat) (connection : pad_connection)
    (value : IOHIDValueRef) (apple : apple_input_data_t) (i : Nat) :
    axis_loop_body MAX_USERS connection value apple i =
      if value.use ≠ axis_use_ids.getD i 0 then some apple
      else (axis_float value).bind fun f =>
        (f32_to_int16 f).bind fun n => store_axis MAX_USERS apple connection.slot i n := rfl

/-- The loop stores nothing when the usage is none of the recognised codes. -/
theorem axis_loop_skip (MAX_USERS : Nat) (connection : pad_connection)
    (value : IOHIDValueRef) (apple : apple_input_data_t) (h : value.use ∉ axis_use_ids) :
    [0, 1, 2, 3].foldlM (axis_loop_body MAX_USERS connection value) apple = some apple := by
  simp only [axis_use_ids, List.mem_cons, List.mem_singleton, not_or, List.not_mem_nil,
    or_false] at h
  obtain ⟨h0, h1, h2, h3⟩ := h
  simp [List.foldlM, axis_loop_body, axis_use_ids, h0, h1, h2, h3]

/-- When the usage is the `i`-th recognised code, the loop is the one store of
the converted float into entry `i` of the slot's row. -/
theorem axis_loop_recognised (MAX_USERS : Nat) (connection : pad_connection)
    (value : IOHIDValueRef) (apple : apple_input_data_t) (i : Nat)
    (h : axis_use_ids[i]? = some value.use) :
    [0, 1, 2, 3].foldlM (axis_loop_body MAX_USERS connection value) apple =
      (axis_float value).bind fun f =>
        (f32_to_int16 f).bind fun n => store_axis MAX_USERS apple connection.slot i n := by
  have hi : i = 0 ∨ i = 1 ∨ i = 2 ∨ i = 3 := by
    rcases i with _ | _ | _ | _ | i
    · simp
    · simp
    · simp
    · simp
    · simp [axis_use_ids] at h
  rcases hi with rfl | rfl | rfl | rfl <;>
    · simp only [axis_use_ids, List.getElem?_cons_zero, List.getElem?_cons_succ,
        Option.some.injEq] at h
      simp only [List.foldlM, axis_loop_body_eq, axis_use_ids, ← h]
      simp

theorem axis_scale_zero : axis_scale 0 = -32767 := by
  simp only [axis_scale, f32_mul, f32_sub, zero_mul, f32_round_zero, zero_sub,
    f32_round_neg_one]
  rw [show ((-1 : ℚ) * 32767) = -32767 by norm_num, f32_round_neg_32767]

theorem axis_scale_one : axis_scale 1 = 32767 := by
  simp only [axis_scale, f32_mul, f32_sub, one_mul, f32_round_two]
  rw [show ((2 : ℚ) - 1) = 1 by norm_num, f32_round_one, one_mul, f32_round_32767]

/-- With `physical_min < physical_max` the divisor is a nonzero float, so the
loop's float is finite. -/
theorem axis_float_of_lt (value : IOHIDValueRef)
    (h : value.physical_min < value.physical_max) :
    axis_float value = some (axis_scale (f32_round
      (f32_of_int (value.integer_value - value.physical_min) /
        f32_of_int (value.physical_max - value.physical_min)))) := by
  have hne : f32_of_int (value.physical_max - value.physical_min) ≠ 0 := by
    apply f32_round_ne_zero
    have : value.physical_max - value.physical_min ≠ 0 := by omega
    exact_mod_cast this
  simp [axis_float, f32_div, hne]

/-- The axis branch of the decoder: for a Generic-Desktop, misc-type element
whose usage is the `i`-th recognised code the callback is the one store of the
converted float into entry `i` of the slot's row. -/
theorem hid_device_input_callback_axis (MAX_USERS : Nat) (apple : apple_input_data_t)
    (connection : pad_connection) (value : IOHIDValueRef) (i : Nat)
    (hpage : value.page = kHIDPage_GenericDesktop)
    (htype : value.type = kIOHIDElementTypeInput_Misc)
    (husage : axis_use_ids[i]? = some value.use) :
    hid_device_input_callback MAX_USERS apple connection value =
      (axis_float value).bind fun f =>
        (f32_to_int16 f).bind fun n => store_axis MAX_USERS apple connection.slot i n := by
  have hmem : value.use ∈ axis_use_ids := List.getElem?_mem husage
  have hhat : value.use ≠ kHIDUsage_GD_Hatswitch := by
    intro h
    rw [h] at hmem
    simp [axis_use_ids, kHIDUsage_GD_Hatswitch] at hmem
  unfold hid_device_input_callback
  simp only [hpage, htype, hhat]
  simp [kIOHIDElementTypeInput_Misc,
    axis_loop_recognised MAX_USERS connection value apple i husage]

/-- The axis branch when everything is defined: the slot is in range, the
float is finite and its integral part is a signed 16-bit value. -/
theorem hid_device_input_callback_axis_store (MAX_USERS : Nat) (apple : apple_input_data_t)
    (connection : pad_connection) (value : IOHIDValueRef) (i : Nat) (v : ℚ)
    (hslot : connection.slot < MAX_USERS)
    (hpage : value.page = kHIDPage_GenericDesktop)
    (htype : value.type = kIOHIDElementTypeInput_Misc)
    (husage : axis_use_ids[i]? = some value.use) (hv : axis_float value = some v)
    (h1 : -32768 ≤ f32_to_int v) (h2 : f32_to_int v ≤ 32767) :
    hid_device_input_callback MAX_USERS apple connection value =
      some { apple with
        axes := Function.update apple.axes (4 * connection.slot + i) (f32_to_int v) } := by
  rw [hid_device_input_callback_axis MAX_USERS apple connection value i hpage htype husage, hv]
  simp [f32_to_int16_of_range v h1 h2, store_axis, hslot]

/-- A Generic-Desktop element of type axis is left undecoded, whatever its
usage and value: the Generic-Desktop branch has a case for the misc type only. -/
theorem hid_device_input_callback_desktop_axis_type (MAX_USERS : Nat)
    (apple : apple_input_data_t) (connection : pad_connection) (value : IOHIDValueRef)
    (hpage : value.page = kHIDPage_GenericDesktop)
    (htype : value.type = kIOHIDElementTypeInput_Axis) :
    hid_device_input_callback MAX_USERS apple connection value = some apple := by
  unfold hid_device_input_callback
  simp [hpage, htype, kIOHIDElementTypeInput_Axis, kIOHIDElementTypeInput_Misc,
    kIOHIDElementTypeInput_Button]

/-- C2, counterexample. A Generic-Desktop element of type axis with usage 48
and range 0..255 is an axis event with a recognised usage code, yet nothing is
stored for it: with raw 255 (the physical maximum) and with raw 0 (the physical
minimum) the all-zero store comes back unchanged, so axis 0 of slot 0 is 0,
neither 32767 nor -32767. -/
theorem C2_counterexample :
    hid_device_input_callback 16 apple_zero conn_slot0
        (desktop_event kIOHIDElementTypeInput_Axis 48 0 255 255) = some apple_zero ∧
    hid_device_input_callback 16 apple_zero conn_slot0
        (desktop_event kIOHIDElementTypeInput_Axis 48 0 255 0) = some apple_zero ∧
    apple_zero.axes (4 * conn_slot0.slot + 0) ≠ 32767 ∧
    apple_zero.axes (4 * conn_slot0.slot + 0) ≠ -32767 := by
  refine ⟨hid_device_input_callback_desktop_axis_type 16 _ _ _ rfl rfl,
    hid_device_input_callback_desktop_axis_type 16 _ _ _ rfl rfl, ?_, ?_⟩ <;>
    simp [apple_zero]

/-- C2 (amended). A Generic-Desktop axis event carried by a misc-type element
(usage the `i`-th of 48, 49, 50, 53) with `physical_min < physical_max`, for a
connection with an in-range slot: a raw value equal to `physical_min` stores
-32767 in axis `i` of the slot, and a raw value equal to `physical_max` stores
+32767. -/
theorem C2_axis_endpoints (MAX_USERS : Nat) (apple : apple_input_data_t)
    (connection : pad_connection) (value : IOHIDValueRef) (i : Nat)
    (hslot : connection.slot < MAX_USERS)
    (hpage : value.page = kHIDPage_GenericDesktop)
    (htype : value.type = kIOHIDElementTypeInput_Misc)
    (husage : axis_use_ids[i]? = some value.use)
    (hrange : value.physical_min < value.physical_max) :
    (value.integer_value = value.physical_min →
      ∃ apple', hid_device_input_callback MAX_USERS apple connection value = some apple' ∧
        apple'.axes (4 * connection.slot + i) = -32767) ∧
    (value.integer_value = value.physical_max →
      ∃ apple', hid_device_input_callback MAX_USERS apple connection value = some apple' ∧
        apple'.axes (4 * connection.slot + i) = 32767) := by
  have hne : f32_of_int (value.physical_max - value.physical_min) ≠ 0 := by
    apply f32_round_ne_zero
    have : value.physical_max - value.physical_min ≠ 0 := by omega
    exact_mod_cast this
  have hv := axis_float_of_lt value hrange
  constructor
  · intro hraw
    have h0 : f32_of_int (value.integer_value - value.physical_min) = 0 := by
      rw [hraw, sub_self]
      simp [f32_of_int, f32_round_zero]
    rw [h0, zero_div, f32_round_zero, axis_scale_zero] at hv
    have hi : f32_to_int (-32767 : ℚ) = -32767 := f32_to_int_intCast (-32767)
    refine ⟨_, hid_device_input_callback_axis_store MAX_USERS apple connection value i _ hslot
      hpage htype husage hv (by rw [hi]; norm_num) (by rw [hi]; norm_num), ?_⟩
    simp only [Function.update_same]
    exact hi
  · intro hraw
    rw [hraw, div_self hne, f32_round_one, axis_scale_one] at hv
    have hi : f32_to_int (32767 : ℚ) = 32767 := f32_to_int_intCast 32767
    refine ⟨_, hid_device_input_callback_axis_store MAX_USERS apple connection value i _ hslot
      hpage htype husage hv (by rw [hi]; norm_num) (by rw [hi]), ?_⟩
    simp only [Function.update_same]
    exact hi

/-- Witness for C2 (amended): usage 48, physical range 0..255, raw 255, slot 0
of 16. -/
theorem C2_axis_endpoints_witness :
    (conn_slot0.slot < 16 ∧
      (desktop_event kIOHIDElementTypeInput_Misc 48 0 255 255).physical_min <
        (desktop_event kIOHIDElementTypeInput_Misc 48 0 255 255).physical_max) ∧
    ∃ apple', hid_device_input_callback 16 apple_zero conn_slot0
        (desktop_event kIOHIDElementTypeInput_Misc 48 0 255 255) = some apple' ∧
      apple'.axes (4 * conn_slot0.slot + 0) = 32767 :=
  ⟨⟨by decide, by decide⟩,
    (C2_axis_endpoints 16 apple_zero conn_slot0
      (desktop_event kIOHIDElementTypeInput_Misc 48 0 255 255) 0
      (by decide) rfl rfl rfl (by decide)).2 rfl⟩

/-! ## Monotonicity of the rounding and the range of the axis value -/

theorem f32_to_int16_range (q : ℚ) (n : Int) (h : f32_to_int16 q = some n) :
    -32768 ≤ n ∧ n ≤ 32767 := by
  unfold f32_to_int16 at h
  split_ifs at h with hr
  rw [Option.some.injEq] at h
  rw [← h]
  exact hr

theorem store_button_valid (MAX_USERS : Nat) (apple apple' : apple_input_data_t)
    (slot v : Nat) (hvalid : store_valid MAX_USERS apple) (hv : v < 2 ^ 64)
    (h : store_button MAX_USERS apple slot v = some apple') :
    store_valid MAX_USERS apple' := by
  unfold store_button at h
  split_ifs at h with hs
  rw [Option.some.injEq] at h
  subst h
  refine ⟨fun s hsM => ?_, hvalid.2⟩
  by_cases e : s = slot
  · subst e
    simpa using hv
  · simpa [Function.update_noteq e] using hvalid.1 s hsM

theorem store_axis_valid (MAX_USERS : Nat) (apple apple' : apple_input_data_t)
    (slot i : Nat) (v : Int) (hvalid : store_valid MAX_USERS apple)
    (hv : -32768 ≤ v ∧ v ≤ 32767)
    (h : store_axis MAX_USERS apple slot i v = some apple') :
    store_valid MAX_USERS apple' := by
  unfold store_axis at h
  split_ifs at h with hs
  rw [Option.some.injEq] at h
  subst h
  refine ⟨hvalid.1, fun k hk => ?_⟩
  by_cases e : k = 4 * slot + i
  · subst e
    simpa using hv
  · simpa [Function.update_noteq e] using hvalid.2 k hk

theorem axis_loop_body_valid (MAX_USERS : Nat) (connection : pad_connection)
    (value : IOHIDValueRef) (apple apple' : apple_input_data_t) (i : Nat)
    (hvalid : store_valid MAX_USERS apple)
    (h : axis_loop_body MAX_USERS connection value apple i = some apple') :
    store_valid MAX_USERS apple' := by
  rw [axis_loop_body_eq] at h
  split_ifs at h with hu
  · rw [Option.some.injEq] at h
    exact h ▸ hvalid
  · rw [Option.bind_eq_some] at h
    obtain ⟨f, _, h⟩ := h
    rw [Option.bind_eq_some] at h
    obtain ⟨n, hn, h⟩ := h
    exact store_axis_valid MAX_USERS apple apple' _ _ n hvalid (f32_to_int16_range f n hn) h

theorem axis_loop_valid (MAX_USERS : Nat) (connection : pad_connection)
    (value : IOHIDValueRef) (l : List Nat) :
    ∀ apple apple' : apple_input_data_t, store_valid MAX_USERS apple →
      l.foldlM (axis_loop_body MAX_USERS connection value) apple = some apple' →
      store_valid MAX_USERS apple' := by
  induction l with
  | nil =>
    intro apple apple' hvalid h
    simp only [List.foldlM, pure, Option.some.injEq] at h
    exact h ▸ hvalid
  | cons i l ih =>
    intro apple apple' hvalid h
    simp only [List.foldlM, bind, Option.bind_eq_some] at h
    obtain ⟨mid, hmid, h⟩ := h
    exact ih mid apple' (axis_loop_body_valid MAX_USERS connection value apple mid i hvalid hmid) h

/-- Whenever the decoder has a result, a store whose masks are 64-bit values
and whose axis entries are signed 16-bit values stays such a store. -/
theorem hid_device_input_callback_valid (MAX_USERS : Nat) (apple apple' : apple_input_data_t)
    (connection : pad_connection) (value : IOHIDValueRef)
    (hvalid : store_valid MAX_USERS apple)
    (h : hid_device_input_callback MAX_USERS apple connection value = some apple') :
    store_valid MAX_USERS apple' := by
  unfold hid_device_input_callback at h
  simp only at h
  split_ifs at h
  all_goals first
    | exact (Option.some.inj h) ▸ hvalid
    | exact axis_loop_valid MAX_USERS connection value _ apple apple' hvalid h
    | exact store_button_valid MAX_USERS apple apple' _ _ hvalid (BIT64_SET_lt _ _) h
    | exact store_button_valid MAX_USERS apple apple' _ _ hvalid (BIT64_CLEAR_lt _ _) h

/-! ## The per-value decoder: ignored events -/

/-- C8. The decoder leaves the whole store (all button masks, all axis values)
unchanged whenever the element type is none of misc, button, axis; or the
(usage page, element type) pair is not Generic-Desktop with misc/axis nor
Button page with button; or the element is the Generic-Desktop hat switch; or
it is a Generic-Desktop element whose usage is none of 48, 49, 50, 53. -/
theorem C8_unrecognised_event_changes_nothing (MAX_USERS : Nat) (apple : apple_input_data_t)
    (connection : pad_connection) (value : IOHIDValueRef)
    (h : (value.type ≠ kIOHIDElementTypeInput_Misc ∧
          value.type ≠ kIOHIDElementTypeInput_Button ∧
          value.type ≠ kIOHIDElementTypeInput_Axis) ∨
        ¬ ((value.page = kHIDPage_GenericDesktop ∧
              (value.type = kIOHIDElementTypeInput_Misc ∨
                value.type = kIOHIDElementTypeInput_Axis)) ∨
            (value.page = kHIDPage_Button ∧ value.type = kIOHIDElementTypeInput_Button)) ∨
        (value.page = kHIDPage_GenericDesktop ∧ value.use = kHIDUsage_GD_Hatswitch) ∨
        (value.page = kHIDPage_GenericDesktop ∧ value.use ∉ axis_use_ids)) :
    hid_device_input_callback MAX_USERS apple connection value = some apple := by
  unfold hid_device_input_callback
  simp only
  by_cases hf : value.type ≠ kIOHIDElementTypeInput_Misc ∧
      value.type ≠ kIOHIDElementTypeInput_Button ∧ value.type ≠ kIOHIDElementTypeInput_Axis
  · rw [if_pos hf]
  · rw [if_neg hf]
    by_cases hgd : value.page = kHIDPage_GenericDesktop
    · rw [if_pos hgd]
      by_cases hm : value.type = kIOHIDElementTypeInput_Misc
      · rw [if_pos hm]
        by_cases hh : value.use = kHIDUsage_GD_Hatswitch
        · rw [if_pos hh]
        · rw [if_neg hh]
          apply axis_loop_skip
          rcases h with h | h | h | h
          · exact absurd hm h.1
          · exact absurd (Or.inl ⟨hgd, Or.inl hm⟩) h
          · exact absurd h.2 hh
          · exact h.2
      · rw [if_neg hm]
    · rw [if_neg hgd]
      by_cases hb : value.page = kHIDPage_Button
      · rw [if_pos hb]
        by_cases hbt : value.type = kIOHIDElementTypeInput_Button
        · exfalso
          rcases h with h | h | h | h
          · exact h.2.1 hbt
          · exact h (Or.inr ⟨hb, hbt⟩)
          · exact hgd h.1
          · exact hgd h.1
        · rw [if_neg hbt]
      · rw [if_neg hb]

/-- Witness for C8: a Generic-Desktop misc element with the unrecognised usage
51 on the all-zero store. -/
theorem C8_unrecognised_event_changes_nothing_witness :
    ((desktop_event kIOHIDElementTypeInput_Misc 51 0 255 7).page = kHIDPage_GenericDesktop ∧
      (desktop_event kIOHIDElementTypeInput_Misc 51 0 255 7).use ∉ axis_use_ids) ∧
    hid_device_input_callback 16 apple_zero conn_slot0
      (desktop_event kIOHIDElementTypeInput_Misc 51 0 255 7) = some apple_zero :=
  ⟨⟨rfl, by decide⟩,
    C8_unrecognised_event_changes_nothing 16 apple_zero conn_slot0
      (desktop_event kIOHIDElementTypeInput_Misc 51 0 255 7)
      (Or.inr (Or.inr (Or.inr ⟨rfl, by decide⟩)))⟩

/-! ## Removal callback -/

theorem mem_memset_entries (MAX_USERS slot k : Nat) :
    k ∈ memset_entries MAX_USERS slot ↔ 4 * slot ≤ k ∧ k < 4 * slot + 4 * MAX_USERS := by
  simp [memset_entries, List.mem_range'_1]

/-- Started at row 0 the `memset` covers exactly the table. -/
theorem memset_axes_slot_zero (MAX_USERS : Nat) (axes : Nat → Int) :
    memset_axes MAX_USERS axes 0 = some fun k => if k < 4 * MAX_USERS then 0 else axes k := by
  unfold memset_axes
  have h : ∀ k ∈ memset_entries MAX_USERS 0, k < 4 * MAX_USERS := by
    intro k hk
    rw [mem_memset_entries] at hk
    omega
  rw [if_pos h]
  congr 1
  funext k
  have : k ∈ memset_entries MAX_USERS 0 ↔ k < 4 * MAX_USERS := by
    rw [mem_memset_entries]
    omega
  simp [this]

/-- Started at any later row the `memset` runs past the end of the table. -/
theorem memset_axes_overrun (MAX_USERS : Nat) (axes : Nat → Int) (slot : Nat)
    (h0 : 0 < slot) (hslot : slot < MAX_USERS) :
    memset_axes MAX_USERS axes slot = none := by
  unfold memset_axes
  have h : ¬ ∀ k ∈ memset_entries MAX_USERS slot, k < 4 * MAX_USERS := by
    intro hall
    have hmem : 4 * MAX_USERS ∈ memset_entries MAX_USERS slot := by
      rw [mem_memset_entries]
      omega
    exact lt_irrefl _ (hall _ hmem)
  rw [if_neg h]

/-- What `remove_device` does for an allocated connection bound to slot 0. -/
theorem remove_device_slot_zero (MAX_USERS : Nat) (w : World) (p : Nat)
    (connection : pad_connection) (hlive : w.heap p = some connection)
    (hzero : connection.slot = 0) (hpos : 0 < MAX_USERS) :
    remove_device MAX_USERS w (some p) =
      some
        { apple :=
            { buttons := Function.update w.apple.buttons 0 0
              axes := fun k => if k < 4 * MAX_USERS then 0 else w.apple.axes k }
          heap := Function.update w.heap p none
          trace := w.trace ++
            [Effect.msg_queue_push (disconnect_msg 0) 0 60 false,
             Effect.rarch_log ("[apple_input]: " ++ disconnect_msg 0 ++ "\n"),
             Effect.pad_deinit 0] } := by
  simp [remove_device, hlive, hzero, hpos, memset_axes_slot_zero]

/-- For an allocated connection bound to an in-range slot other than 0 the
`memset` of `remove_device` overruns the axis table: the removal is undefined. -/
theorem remove_device_overrun (MAX_USERS : Nat) (w : World) (p : Nat)
    (connection : pad_connection) (hlive : w.heap p = some connection)
    (h0 : 0 < connection.slot) (hslot : connection.slot < MAX_USERS) :
    remove_device MAX_USERS w (some p) = none := by
  simp [remove_device, hlive, hslot, memset_axes_overrun MAX_USERS _ _ h0 hslot]

/-- What `remove_device` does for an allocated connection whose slot is out of
range: nothing at all. -/
theorem remove_device_out_of_range (MAX_USERS : Nat) (w : World) (p : Nat)
    (connection : pad_connection) (hlive : w.heap p = some connection)
    (hslot : MAX_USERS ≤ connection.slot) :
    remove_device MAX_USERS w (some p) = some w := by
  simp [remove_device, hlive, Nat.not_lt.mpr hslot]

/-- Removal of the connection bound to slot 0 does what the specification asks
of every removal: the slot's mask and its four axis values become 0 and the
masks of all other slots are unchanged. -/
theorem remove_device_slot_zero_clears (MAX_USERS : Nat) (w : World) (p : Nat)
    (connection : pad_connection) (hlive : w.heap p = some connection)
    (hzero : connection.slot = 0) (hpos : 0 < MAX_USERS) :
    ∃ w', remove_device MAX_USERS w (some p) = some w' ∧
      w'.apple.buttons 0 = 0 ∧
      (∀ i, i < 4 → w'.apple.axes (4 * 0 + i) = 0) ∧
      (∀ t, t ≠ 0 → w'.apple.buttons t = w.apple.buttons t) := by
  refine ⟨_, remove_device_slot_zero MAX_USERS w p connection hlive hzero hpos, ?_, ?_, ?_⟩
  · simp
  · intro i hi
    have : 4 * 0 + i < 4 * MAX_USERS := by omega
    simp only [if_pos this]
  · intro t ht
    simp [Function.update_noteq ht]

/-- C5, evaluation at the failing input. With `MAX_USERS = 16` (an axis table
of 64 entries), removing the connection bound to slot 1 has no defined result:
the `memset` writes the entries 4..67, of which 64..67 lie past the end of the
table.  For the connection bound to slot 0 the removal is defined and does what
the claim says: mask 0 and axes 0..3 become 0, every other mask keeps its
value. -/
theorem C5_removal_defined_for_slot_zero_only :
    remove_device 16 (world_with apple_busy 100 conn_slot1) (some 100) = none ∧
    (∀ k, 64 ≤ k → k < 68 → k ∈ memset_entries 16 conn_slot1.slot ∧ ¬ k < 4 * 16) ∧
    (∃ w', remove_device 16 (world_with apple_busy 100 conn_slot0) (some 100) = some w' ∧
      w'.apple.buttons 0 = 0 ∧
      (∀ i, i < 4 → w'.apple.axes (4 * 0 + i) = 0) ∧
      (∀ t, t ≠ 0 → w'.apple.buttons t = apple_busy.buttons t)) := by
  refine ⟨remove_device_overrun 16 _ 100 conn_slot1 rfl (by decide) (by decide), ?_,
    remove_device_slot_zero_clears 16 (world_with apple_busy 100 conn_slot0) 100 conn_slot0 rfl
      rfl (by decide)⟩
  intro k h1 h2
  rw [mem_memset_entries]
  simp only [conn_slot1]
  omega

/-- C6, evaluation at the failing input. With `MAX_USERS = 16`, removing an
allocated connection whose slot is the unassigned sentinel 16 returns the world
unchanged: no mask, axis or trace change, and the connection is still
allocated (it has not been freed). -/
theorem C6_unassigned_connection_not_freed :
    ∃ w', remove_device 16 (world_with apple_busy 100 (conn_unassigned 16)) (some 100) =
        some w' ∧
      w' = world_with apple_busy 100 (conn_unassigned 16) ∧
      w'.heap 100 = some (conn_unassigned 16) ∧
      w'.trace = [] :=
  ⟨_, remove_device_out_of_range 16 (world_with apple_busy 100 (conn_unassigned 16)) 100
    (conn_unassigned 16) rfl (by decide), rfl, rfl, rfl⟩

/-- The sibling path: whenever the removal of a connection with an in-range
slot has a result, the connection has been freed. -/
theorem remove_device_in_range_frees (MAX_USERS : Nat) (w w' : World) (p : Nat)
    (connection : pad_connection) (hlive : w.heap p = some connection)
    (hslot : connection.slot < MAX_USERS)
    (hres : remove_device MAX_USERS w (some p) = some w') :
    w'.heap p = none := by
  simp only [remove_device, hlive, hslot, if_true, Option.map_eq_some'] at hres
  obtain ⟨axes, _, rfl⟩ := hres
  simp

/-- C10, evaluation at the failing input. With `MAX_USERS = 16` the axis table
has the 64 entries 0..63.  Removing a connection bound to slot 1 from a store
whose entries are all 5: the `memset` does not write row 0 (entries 0..3, which
hold 5), it writes the entries 4..63 of the table, and it also writes the four
entries 64..67 past the end of the table, so that the removal has no defined
result. -/
theorem C10_memset_misses_row_and_overruns :
    (∀ k, k < 4 →
      k ∉ memset_entries 16 conn_slot1.slot ∧
      (world_with apple_busy 100 conn_slot1).apple.axes k = 5) ∧
    (∀ k, 4 ≤ k → k < 64 → k ∈ memset_entries 16 conn_slot1.slot) ∧
    (∀ k, 64 ≤ k → k < 68 → k ∈ memset_entries 16 conn_slot1.slot ∧ ¬ k < 4 * 16) ∧
    remove_device 16 (world_with apple_busy 100 conn_slot1) (some 100) = none := by
  refine ⟨?_, ?_, ?_, remove_device_overrun 16 _ 100 conn_slot1 rfl (by decide) (by decide)⟩
  · intro k hk
    refine ⟨?_, rfl⟩
    rw [mem_memset_entries]
    simp only [conn_slot1]
    omega
  · intro k h1 h2
    rw [mem_memset_entries]
    simp only [conn_slot1]
    omega
  · intro k h1 h2
    rw [mem_memset_entries]
    simp only [conn_slot1]
    omega

/-- Whenever the removal has a result, the store keeps its cell widths. -/
theorem remove_device_valid (MAX_USERS : Nat) (w w' : World) (context : Option Nat)
    (hvalid : store_valid MAX_USERS w.apple)
    (h : remove_device MAX_USERS w context = some w') :
    store_valid MAX_USERS w'.apple := by
  unfold remove_device at h
  cases context with
  | none =>
    simp only [Option.some.injEq] at h
    exact h ▸ hvalid
  | some p =>
    simp only at h
    cases hp : w.heap p with
    | none =>
      simp only [hp, Option.some.injEq] at h
      exact h ▸ hvalid
    | some connection =>
      simp only [hp] at h
      split_ifs at h with hs
      · rw [Option.map_eq_some'] at h
        obtain ⟨axes, hax, rfl⟩ := h
        unfold memset_axes at hax
        split_ifs at hax with hall
        rw [Option.some.injEq] at hax
        subst hax
        refine ⟨fun s hsM => ?_, fun k hk => ?_⟩
        · by_cases e : s = connection.slot
          · subst e
            simp
          · simpa [Function.update_noteq e] using hvalid.1 s hsM
        · by_cases hm : k ∈ memset_entries MAX_USERS connection.slot
          · simp [hm]
          · simpa [hm] using hvalid.2 k hk
      · simp only [Option.some.injEq] at h
        exact h ▸ hvalid

/-! ## Raw-report callback -/

/-- C7, counterexample. (a) A zero-length report for an allocated connection
bound to slot 0 is delivered: `pad_connection_packet` is called for slot 0 with
length 1. (b) A report for a connection whose slot is the unassigned sentinel
(`MAX_USERS = 16`) is delivered as well, for slot 16. -/
theorem C7_counterexample :
    (hid_device_report (world_with apple_zero 100 conn_slot0) (some 100) 0 1 [] 0).trace =
      [Effect.packet 0 [0, 0, 0] 1] ∧
    (hid_device_report (world_with apple_zero 100 (conn_unassigned 16)) (some 100) 0 1
      [5, 6] 2).trace = [Effect.packet 16 [0, 0, 0] 3] := by
  constructor <;> rfl

/-- C7 (amended). `hid_device_report` ignores a report only when its connection
is null.  For every allocated connection, whatever the report length (zero
included) and whatever the slot (the unassigned sentinel included), it calls
`pad_connection_packet` exactly once, for the connection's slot, with the
connection's data buffer and length `reportLength + 1`; it changes no button
mask, no axis value and no connection itself. -/
theorem C7_report_always_delivered (w : World) (p : Nat) (connection : pad_connection)
    (type reportID : Nat) (report : List Nat) (reportLength : Int)
    (hlive : w.heap p = some connection) :
    (hid_device_report w (some p) type reportID report reportLength).trace =
      w.trace ++ [Effect.packet connection.slot connection.data (reportLength + 1)] ∧
    (hid_device_report w (some p) type reportID report reportLength).apple = w.apple ∧
    (hid_device_report w (some p) type reportID report reportLength).heap = w.heap ∧
    hid_device_report w none type reportID report reportLength = w := by
  simp [hid_device_report, hlive]

/-- Witness for C7 (amended): a zero-length report for slot 0. -/
theorem C7_report_always_delivered_witness :
    (world_with apple_zero 100 conn_slot0).heap 100 = some conn_slot0 ∧
    ((hid_device_report (world_with apple_zero 100 conn_slot0) (some 100) 0 1 [] 0).trace =
      (world_with apple_zero 100 conn_slot0).trace ++
        [Effect.packet conn_slot0.slot conn_slot0.data (0 + 1)] ∧
    (hid_device_report (world_with apple_zero 100 conn_slot0) (some 100) 0 1 [] 0).apple =
      (world_with apple_zero 100 conn_slot0).apple ∧
    (hid_device_report (world_with apple_zero 100 conn_slot0) (some 100) 0 1 [] 0).heap =
      (world_with apple_zero 100 conn_slot0).heap ∧
    hid_device_report (world_with apple_zero 100 conn_slot0) none 0 1 [] 0 =
      world_with apple_zero 100 conn_slot0) :=
  ⟨rfl, C7_report_always_delivered (world_with apple_zero 100 conn_slot0) 100 conn_slot0 0 1 []
    0 rfl⟩

/-! ## Output channel -/

/-- For every buffer and size, a non-null connection gets exactly one
`IOHIDDeviceSetReport` call, on its own device handle, with report type Output,
report ID 0x01, the report pointer one byte into the caller's buffer and the
length `size - 1`. -/
theorem hid_pad_connection_send_control_call (connection : pad_connection)
    (data_buf : List Nat) (size : Nat) :
    hid_pad_connection_send_control (some connection) data_buf size =
      [Effect.set_report connection.device_handle kIOHIDReportTypeOutput 0x01
        ((data_buf.drop 1).take ((size : Int) - 1).toNat) ((size : Int) - 1)] := rfl

/-- C9. For a buffer holding at least `size` bytes, `size ≥ 1`: with a non-null
connection `hid_pad_connection_send_control` issues exactly one output report,
to that connection's device handle, with report type Output and report ID 0x01,
whose payload is the caller's buffer without its first byte (bytes
`1 .. size - 1`) and whose length is `size - 1`; with a null connection no
report is sent. -/
theorem C9_send_control_forwards_tail (connection : pad_connection) (data_buf : List Nat)
    (size : Nat) (h1 : 1 ≤ size) (h2 : size ≤ data_buf.length) :
    hid_pad_connection_send_control (some connection) data_buf size =
      [Effect.set_report connection.device_handle kIOHIDReportTypeOutput 0x01
        ((data_buf.take size).drop 1) ((size : Int) - 1)] ∧
    ((data_buf.take size).drop 1).length = size - 1 ∧
    (∀ k, k < size - 1 → ((data_buf.take size).drop 1)[k]? = data_buf[k + 1]?) ∧
    hid_pad_connection_send_control none data_buf size = [] := by
  have hn : ((size : Int) - 1).toNat = size - 1 := by omega
  refine ⟨?_, ?_, ?_, rfl⟩
  · simp only [hid_pad_connection_send_control, hn]
    rw [List.drop_take]
  · simp [List.length_drop, List.length_take, Nat.min_eq_left h2]
  · intro k hk
    rw [List.getElem?_drop, List.getElem?_take_of_lt (by omega), Nat.add_comm]

/-- Witness for C9: a four-byte control buffer. -/
theorem C9_send_control_forwards_tail_witness :
    (1 ≤ 4 ∧ 4 ≤ [1, 10, 20, 30].length) ∧
    (hid_pad_connection_send_control (some conn_slot0) [1, 10, 20, 30] 4 =
      [Effect.set_report conn_slot0.device_handle kIOHIDReportTypeOutput 0x01
        (([1, 10, 20, 30].take 4).drop 1) (((4 : Nat) : Int) - 1)] ∧
    (([1, 10, 20, 30].take 4).drop 1).length = 4 - 1 ∧
    (∀ k, k < 4 - 1 → (([1, 10, 20, 30].take 4).drop 1)[k]? = [1, 10, 20, 30][k + 1]?) ∧
    hid_pad_connection_send_control none [1, 10, 20, 30] 4 = []) :=
  ⟨⟨by decide, by decide⟩,
    C9_send_control_forwards_tail conn_slot0 [1, 10, 20, 30] 4 (by decide) (by decide)⟩

end AppleHid
